import Mathlib

/-!
# A shallow embedding of the `tvm-rs` runtime core

This file embeds the Rust sources of the `tvm-rs` inference runtime
(`src/runtime/{array,graph,workspace,threading,allocator}.rs`) as executable
Lean definitions and proves (or refutes) the frozen specification claims
about them.

Modelling conventions:
* Machine integers (`usize`, `u64`, ...) are `Nat`; wrap-around and casts are
  made explicit where the code relies on them.
* A Rust panic (out-of-bounds `Vec` index, failed `assert!`, failed
  `unwrap()`, arithmetic underflow) is modelled by `Option`/`none`.
* Raw pointers are modelled by `Nat` addresses (for `DLTensor`) or by the
  index of the backing allocation (for the workspace pool, whose allocations
  all stay live and hence have pairwise distinct addresses).
* Byte buffers are `List Nat` with every element `< 256`.
-/

/-! ## DLPack data-type codes (ffi::runtime) -/

def DLDataTypeCode_kDLInt : Nat := 0
def DLDataTypeCode_kDLUInt : Nat := 1
def DLDataTypeCode_kDLFloat : Nat := 2
def DLDeviceType_kDLCPU : Nat := 1

/-! ## `DataType` (array.rs) -/

/-- `DataType { code, bits, lanes }` from `array.rs` (all fields `usize`). -/
structure DataType where
  code : Nat
  bits : Nat
  lanes : Nat
deriving DecidableEq, Repr

/-- `DataType::itemsize`: `(self.bits * self.lanes) >> 3`. -/
def DataType.itemsize (d : DataType) : Nat := (d.bits * d.lanes) / 8

/-- `DTYPE_FLOAT32` constant from `array.rs`. -/
def DTYPE_FLOAT32 : DataType :=
  { code := DLDataTypeCode_kDLFloat, bits := 32, lanes := 1 }

/-! ## Dtype string parser `tvm_str_to_type` (graph.rs)

The source is a `nom` parser:
`alpha1 >> digit1 >> opt!(tuple!(tag!("x"), digit1))`, building a `DataType`
whose `code` is matched against the full alphabetic prefix (`int`, `uint`,
`float`, anything else ↦ float), with `bits.parse::<u8>().unwrap()` and
`lanes.parse::<u16>().unwrap()` (default 1).  A panicking `unwrap` (numeric
overflow of `u8`/`u16`) is modelled as `none`.
-/

def isAsciiAlphaCh (c : Char) : Bool :=
  (('a' ≤ c) && (c ≤ 'z')) || (('A' ≤ c) && (c ≤ 'Z'))

def isAsciiDigitCh (c : Char) : Bool := ('0' ≤ c) && (c ≤ '9')

/-- Decimal value of a digit string (the string is known to be all digits). -/
def digitsToNat (cs : List Char) : Nat :=
  cs.foldl (fun a c => 10 * a + (c.toNat - '0'.toNat)) 0

/-- The `code` selected by the `match type_name { ... }` in `tvm_str_to_type`. -/
def dtypeCodeOfKind (kind : List Char) : Nat :=
  if kind = "int".toList then DLDataTypeCode_kDLInt
  else if kind = "uint".toList then DLDataTypeCode_kDLUInt
  else if kind = "float".toList then DLDataTypeCode_kDLFloat
  else DLDataTypeCode_kDLFloat

/-- `tvm_str_to_type` over a list of characters; returns the parsed
`DataType` and the unconsumed suffix, or `none` on parse failure / panic. -/
def tvm_str_to_type (cs : List Char) : Option (DataType × List Char) :=
  let kind := cs.takeWhile isAsciiAlphaCh
  let rest1 := cs.dropWhile isAsciiAlphaCh
  if kind = [] then none
  else
    let bits := rest1.takeWhile isAsciiDigitCh
    let rest2 := rest1.dropWhile isAsciiDigitCh
    if bits = [] then none
    else
      let lanesParse : Option (List Char) × List Char :=
        match rest2 with
        | 'x' :: r =>
          let ds := r.takeWhile isAsciiDigitCh
          if ds = [] then (none, rest2) else (some ds, r.dropWhile isAsciiDigitCh)
        | _ => (none, rest2)
      let bitsVal := digitsToNat bits
      if bitsVal ≥ 256 then none  -- bits.parse::<u8>().unwrap() panics
      else
        match lanesParse with
        | (some ds, rest3) =>
          let lanesVal := digitsToNat ds
          if lanesVal ≥ 65536 then none  -- lanes.parse::<u16>().unwrap() panics
          else some ({ code := dtypeCodeOfKind kind, bits := bitsVal, lanes := lanesVal }, rest3)
        | (none, rest3) =>
          some ({ code := dtypeCodeOfKind kind, bits := bitsVal, lanes := 1 }, rest3)

/-! ## Workspace pool (workspace.rs) -/

/-- `Allocation` (allocator.rs): we track the requested `size` and `align`
of each workspace block; the block's address is its index in
`WorkspacePool.workspaces` (blocks are never deallocated, so addresses are
pairwise distinct and stable). -/
structure MAllocation where
  size : Nat
  align : Nat
deriving DecidableEq, Repr

/-- `WorkspacePool { workspaces, free, in_use }`. -/
structure WorkspacePool where
  workspaces : List MAllocation
  free : List Nat
  in_use : List Nat
deriving DecidableEq, Repr

/-- Lookup `self.workspaces[idx]`; reachable pools only ever index in
bounds (every element of `free`/`in_use` is a valid index). -/
def WorkspacePool.ws (p : WorkspacePool) (idx : Nat) : MAllocation :=
  (p.workspaces.get? idx).getD ⟨0, 0⟩

/-- `WorkspacePool::alloc_new`: push a fresh block, mark it in-use and
return (new pool, pointer). -/
def WorkspacePool.alloc_new (p : WorkspacePool) (size align : Nat) :
    WorkspacePool × Nat :=
  let ptr := p.workspaces.length
  ({ workspaces := p.workspaces ++ [⟨size, align⟩],
     free := p.free,
     in_use := p.in_use ++ [ptr] }, ptr)

/-- `WorkspacePool::alloc`.  The candidate selection is the source's `fold`
over `self.free` with accumulator `cur_ws_idx : Option<usize>` seeded with
`None`; note that a qualifying block is combined into the accumulator with
`cur_ws_idx.and_then(...)` (here `Option.bind`), exactly as in the source. -/
def WorkspacePool.alloc (p : WorkspacePool) (size align : Nat) :
    WorkspacePool × Nat :=
  if p.free.length = 0 then p.alloc_new size align
  else
    let idx : Option Nat := p.free.foldl
      (fun cur_ws_idx idx =>
        let ws_size := (p.ws idx).size
        let ws_ok := (size ≤ ws_size) && ((p.ws idx).align == align)
        if !ws_ok then cur_ws_idx
        else
          cur_ws_idx.bind (fun cur_idx =>
            let cur_size := (p.ws cur_idx).size
            some (if ws_size < cur_size then idx else cur_idx)))
      none
    match idx with
    | some idx =>
      ({ p with free := p.free.erase idx, in_use := p.in_use ++ [idx] }, idx)
    | none => p.alloc_new size align

/-- `WorkspacePool::free`: scan `in_use` for the block whose pointer matches,
remove it (first occurrence) and push it onto `free`; `none` when the pointer
is not in use (`"Tried to free nonexistent workspace."`). -/
def WorkspacePool.freeBlock (p : WorkspacePool) (ptr : Nat) : Option WorkspacePool :=
  if p.in_use.contains ptr then
    some { p with in_use := p.in_use.erase ptr, free := p.free ++ [ptr] }
  else none

/-- `WORKSPACE_PAGE_SIZE = 4 << 10`. -/
def WORKSPACE_PAGE_SIZE : Nat := 4 * 1024

/-- `TVMBackendAllocWorkspace`: substitute `WORKSPACE_PAGE_SIZE` for a zero
size and allocate with `dtype_bits_hint` as the alignment. -/
def TVMBackendAllocWorkspace (p : WorkspacePool) (size : Nat)
    (dtype_bits_hint : Nat) : WorkspacePool × Nat :=
  let nbytes := if size = 0 then WORKSPACE_PAGE_SIZE else size
  p.alloc nbytes dtype_bits_hint

/-- `TVMBackendFreeWorkspace`.  In the source the `match` computing `0`/`-1`
is the value of the `with`-closure, but that whole statement is discarded
(`...;`) and the function ends with `return 0;` — so the result is `0`
unconditionally; only the pool state depends on success. -/
def TVMBackendFreeWorkspace (p : WorkspacePool) (ptr : Nat) :
    WorkspacePool × Int :=
  match p.freeBlock ptr with
  | some p2 => (p2, 0)
  | none => (p, 0)

/-! ## Worker pool job derivation (threading.rs) -/

/-- The observable fields of a `Task` pushed by `Job::tasks`: its `id` and
the `penv.num_task` it carries. -/
structure MTask where
  id : Nat
  num_task : Nat
deriving DecidableEq, Repr

/-- `Job::tasks(num_workers)`: derive `num_tasks`, store it into `pending`,
and build the task vector.  Returns `(pending, tasks)`. -/
def job_tasks (req_num_tasks num_workers : Nat) : Nat × List MTask :=
  let num_tasks := if req_num_tasks = 0 then num_workers
                   else min req_num_tasks num_workers
  (num_tasks, (List.range num_tasks).map (fun i => ⟨i, num_tasks⟩))

/-! ## `Tensor` (array.rs)

`MTensor.data` models the byte buffer reachable through
`tensor.data.as_ptr()` (for an `Owned` storage, the allocation's contents;
for a `View`, the viewed bytes). -/

structure MTensor where
  data : List Nat
  ctx : Nat × Nat
  dtype : DataType
  shape : List Nat
  strides : Option (List Nat)
  byte_offset : Nat
  numel : Nat
deriving DecidableEq, Repr

/-- `Tensor::is_contiguous`: `rfold` (= `List.foldr`) over
`shape.iter().zip(strides)` with seed `(true, 1)`. -/
def MTensor.is_contiguous (t : MTensor) : Bool :=
  match t.strides with
  | none => true
  | some strides =>
    ((t.shape.zip strides).foldr
      (fun sh_st acc => (acc.1 && (sh_st.2 == acc.2), acc.2 * sh_st.1))
      (true, 1)).1

/-- `Tensor::to_vec::<T>`: copies `self.numel` elements of `T`
(`numel * size_of::<T>()` bytes) starting at `byte_offset`; `tsize` is
`size_of::<T>()`.  (The `Vec` is created with capacity
`numel * dtype.itemsize()` but only `numel` elements are copied and
`set_len(numel)` is applied.) -/
def MTensor.to_vec (t : MTensor) (tsize : Nat) : List Nat :=
  (t.data.drop t.byte_offset).take (t.numel * tsize)

/-- Write `src` into `dst` starting at byte `off` (a `copy_from_nonoverlapping`
whose target stays inside `dst`, as in every use below). -/
def listWrite (dst : List Nat) (off : Nat) (src : List Nat) : List Nat :=
  dst.take off ++ src ++ dst.drop (off + src.length)

/-- `Tensor::copy`: asserts matching dtype/numel and contiguity of both
sides (panic ↦ `none`), then copies `other.numel * other.dtype.itemsize()`
bytes from `other.data.as_mut_ptr()` — with `.offset(other.byte_offset)`
commented out in the source — to `self.data.as_mut_ptr() + self.byte_offset`. -/
def MTensor.copy (dst src : MTensor) : Option MTensor :=
  if dst.dtype = src.dtype ∧ dst.numel = src.numel then
    if dst.is_contiguous ∧ src.is_contiguous then
      some { dst with
        data := listWrite dst.data dst.byte_offset
          (src.data.take (src.numel * src.dtype.itemsize)) }
    else none
  else none

/-! ## `DLTensor::from_tensor` (array.rs) -/

/-- The C-ABI descriptor produced by `DLTensor::from_tensor`.  `dataAddr`
is the value of the `data` pointer given a base address `base` for the
tensor's storage; `strides = none` models a null strides pointer, and
`shape` holds the array the `shape` pointer points at. -/
structure MDLTensor where
  dataAddr : Nat
  device_type : Nat
  device_id : Nat
  ndim : Nat
  dtype : DataType
  shape : List Nat
  strides : Option (List Nat)
  byte_offset : Nat
deriving DecidableEq, Repr

/-- `DLTensor::from_tensor(tensor, flatten)` where `base` is the address of
`tensor.data` (the failed `assert!(!flatten || tensor.is_contiguous())` is
`none`). -/
def DLTensor.from_tensor (base : Nat) (t : MTensor) (flatten : Bool) :
    Option MDLTensor :=
  if flatten && !t.is_contiguous then none
  else some {
    dataAddr := base + t.byte_offset
    device_type := t.ctx.1
    device_id := t.ctx.2
    ndim := if flatten then 1 else t.shape.length
    dtype := t.dtype
    shape := if flatten then [t.numel] else t.shape
    strides := if flatten || t.is_contiguous then none else t.strides
    byte_offset := 0 }

/-! ## Graph planner (graph.rs)

`setup_storages` receives the decoded graph attributes `storage_id`,
`shape` and `dltype` (the latter already parsed to `DataType`s).  Vector
indexing panics and the `usize` underflow of `offsets.len() - 2` are
modelled by `none`. -/

/-- A tensor as planned by `setup_storages`: a `View` of the single arena
with the given `byte_offset` (the `data` is `storage.clone()` shared by all
planned tensors, so only the offset distinguishes them). -/
structure MPlannedTensor where
  storage_id : Nat
  shape : List Nat
  dtype : DataType
  byte_offset : Nat
deriving DecidableEq, Repr

/-- The body of the `for (i, &storage_id)` loop of `setup_storages`:
`storage_num_bytes[storage_id] = max(nbytes, storage_num_bytes[storage_id])`
where `nbytes = (dtypes[i].bits * dtypes[i].lanes >> 3) * shapes[i].prod()`. -/
def snbStep (shapes : List (List Nat)) (dtypes : List DataType)
    (snb : List Nat) (i : Nat) (sid : Nat) : Option (List Nat) := do
  let d ← dtypes.get? i
  let sh ← shapes.get? i
  let dtype_size := (d.bits * d.lanes) / 8
  let nbytes := dtype_size * sh.prod
  let cur ← snb.get? sid
  pure (snb.set sid (max nbytes cur))

/-- One step of the offsets loop: `offsets[i + 1] = offsets[i] +
storage_num_bytes[i]`. -/
def offsetsStep (snb : List Nat) (offsets : List Nat) (i : Nat) :
    Option (List Nat) := do
  let o ← offsets.get? i
  let s ← snb.get? i
  pure (offsets.set (i + 1) (o + s))

/-- `GraphExecutor::setup_storages`, given the already-decoded attribute
vectors.  Returns `(align, total_size, offsets, tensors)`:
* `align` is `dtypes.iter().map(|d| d.bits >> 3).max()`;
* `total_size` is the size of the single `Storage` allocated;
* `offsets` is the offsets vector after the prefix-sum loop
  `for i in 0..(offsets.len() - 2)`; the loop bound underflows when fewer
  than two tensors exist, making the loop (or the preceding `offsets[0]`
  write) panic, modelled as `none`;
* `tensors` are the planned tensors `byte_offset = offsets[storage_id]`. -/
def setup_storages (storage_ids : List Nat) (shapes : List (List Nat))
    (dtypes : List DataType) :
    Option (Option Nat × Nat × List Nat × List MPlannedTensor) := do
  let align := (dtypes.map (fun d => d.bits / 8)).max?
  let snb0 := List.replicate ((storage_ids.max?.getD 1) + 1) 0
  let snb ← (storage_ids.enum).foldlM
    (fun snb p => snbStep shapes dtypes snb p.1 p.2) snb0
  let total := snb.sum
  let n := storage_ids.length
  if n < 2 then none  -- `offsets[0] = 0` / the loop write panics
  else do
    let offsets ← (List.range (n - 2)).foldlM (offsetsStep snb)
      (List.replicate n 0)
    let tensors ← (storage_ids.zip (shapes.zip dtypes)).mapM
      (fun p => (offsets.get? p.1).map (fun off =>
        ({ storage_id := p.1, shape := p.2.1, dtype := p.2.2,
           byte_offset := off } : MPlannedTensor)))
    pure (align, total, offsets, tensors)

/-- The per-slot offsets the specification prescribes: the prefix sums of
`storage_num_bytes` (`offset_S = Σ_{s < S} slot_bytes_s`). -/
def specSlotOffsets (snb : List Nat) : List Nat :=
  (List.range snb.length).map (fun s => (snb.take s).sum)

/-! ## Kernel argument binding (graph.rs `setup_op_execs`) -/

/-- `Graph::entry_index`: `node_row_ptr[entry.id] + entry.index` (the
`node_row_ptr` is known present here; its indexing panic is `none`). -/
def entry_index (node_row_ptr : List Nat) (entry : Nat × Nat) : Option Nat :=
  (node_row_ptr.get? entry.1).map (fun base => base + entry.2)

/-- The tensor indices bound for one non-null node by `setup_op_execs`:
each input entry through `entry_index`, chained with
`(0..num_outputs).map(|oi| node_row_ptr[oi])`.  Note the source indexes
`node_row_ptr` by the *output ordinal* `oi` — the node's own id is not in
scope in the closure at all. -/
def op_arg_indices (node_row_ptr : List Nat) (inputs : List (Nat × Nat))
    (num_outputs : Nat) : Option (List Nat) := do
  let ins ← inputs.mapM (entry_index node_row_ptr)
  let outs ← (List.range num_outputs).mapM (fun oi => node_row_ptr.get? oi)
  pure (ins ++ outs)

/-- The argument indices the specification prescribes for node `nid`:
inputs through `entry_index`, then outputs at
`node_row_ptr[nid] + 0 .. node_row_ptr[nid] + num_outputs - 1`. -/
def spec_arg_indices (node_row_ptr : List Nat) (inputs : List (Nat × Nat))
    (nid : Nat) (num_outputs : Nat) : Option (List Nat) := do
  let ins ← inputs.mapM (entry_index node_row_ptr)
  let base ← node_row_ptr.get? nid
  pure (ins ++ (List.range num_outputs).map (fun oi => base + oi))

/-! ## Binary parameter-dictionary parser (graph.rs)

The `nom` parsers `name`, `tvm_ctx`, `data_type`, `tensor` and
`parse_param_dict` are modelled as functions `List Nat → Option (α × List
Nat)` over byte lists, returning the parsed value and the unconsumed
suffix. -/

def NDARRAY_MAGIC : Nat := 0xDD5E40F096B4A13F
def NDARRAY_LIST_MAGIC : Nat := 0xF7E58D4F05049CB7

/-- Little-endian value of a byte list (bytes are `< 256`). -/
def bytesToNatLE : List Nat → Nat
  | [] => 0
  | b :: bs => b + 256 * bytesToNatLE bs

/-- `take!(n)`: consume exactly `n` bytes. -/
def pTake (n : Nat) (bs : List Nat) : Option (List Nat × List Nat) :=
  if n ≤ bs.length then some (bs.take n, bs.drop n) else none

/-- `le_u64`. -/
def leU64 (bs : List Nat) : Option (Nat × List Nat) :=
  (pTake 8 bs).map (fun p => (bytesToNatLE p.1, p.2))

/-- `le_u32`. -/
def leU32 (bs : List Nat) : Option (Nat × List Nat) :=
  (pTake 4 bs).map (fun p => (bytesToNatLE p.1, p.2))

/-- `le_u16`. -/
def leU16 (bs : List Nat) : Option (Nat × List Nat) :=
  (pTake 2 bs).map (fun p => (bytesToNatLE p.1, p.2))

/-- `le_u8`. -/
def leU8 (bs : List Nat) : Option (Nat × List Nat) :=
  (pTake 1 bs).map (fun p => (bytesToNatLE p.1, p.2))

/-- The Rust cast `(x as i32) as usize` applied to the raw 32-bit value:
sign-extension into the 64-bit `usize` domain. -/
def i32AsUsize (n : Nat) : Nat :=
  if n < 2 ^ 31 then n else 2 ^ 64 - 2 ^ 32 + n

/-- `bits!(tag_bits!(u64, 64, 0))`: consume 8 bytes whose 64-bit value must
be `0` (this is the `reserved` field; the preceding magic is consumed by an
unchecked `take!(8)`). -/
def tagU64Zero (bs : List Nat) : Option (Unit × List Nat) :=
  (pTake 8 bs).bind (fun p =>
    if bytesToNatLE p.1 = 0 then some ((), p.2) else none)

/-- `count!(p, n)` / the repetition part of `length_count!`. -/
def pCount {α : Type} (p : List Nat → Option (α × List Nat)) :
    Nat → List Nat → Option (List α × List Nat)
  | 0, bs => some ([], bs)
  | n + 1, bs => do
    let (a, r) ← p bs
    let (xs, r2) ← pCount p n r
    pure (a :: xs, r2)

/-- Strict UTF-8 validity (the check performed by `String::from_utf8` inside
the `name` parser's `map_res!`): well-formed sequences only, no overlong
encodings, no surrogates, maximum `U+10FFFF`. -/
def isValidUtf8 : List Nat → Bool
  | [] => true
  | b0 :: rest =>
    if b0 ≤ 0x7F then isValidUtf8 rest
    else if 0xC2 ≤ b0 ∧ b0 ≤ 0xDF then
      match rest with
      | b1 :: r => (0x80 ≤ b1 && b1 ≤ 0xBF) && isValidUtf8 r
      | [] => false
    else if b0 = 0xE0 then
      match rest with
      | b1 :: b2 :: r =>
        (0xA0 ≤ b1 && b1 ≤ 0xBF) && (0x80 ≤ b2 && b2 ≤ 0xBF) && isValidUtf8 r
      | _ => false
    else if (0xE1 ≤ b0 ∧ b0 ≤ 0xEC) ∨ b0 = 0xEE ∨ b0 = 0xEF then
      match rest with
      | b1 :: b2 :: r =>
        (0x80 ≤ b1 && b1 ≤ 0xBF) && (0x80 ≤ b2 && b2 ≤ 0xBF) && isValidUtf8 r
      | _ => false
    else if b0 = 0xED then
      match rest with
      | b1 :: b2 :: r =>
        (0x80 ≤ b1 && b1 ≤ 0x9F) && (0x80 ≤ b2 && b2 ≤ 0xBF) && isValidUtf8 r
      | _ => false
    else if b0 = 0xF0 then
      match rest with
      | b1 :: b2 :: b3 :: r =>
        (0x90 ≤ b1 && b1 ≤ 0xBF) && (0x80 ≤ b2 && b2 ≤ 0xBF) &&
          (0x80 ≤ b3 && b3 ≤ 0xBF) && isValidUtf8 r
      | _ => false
    else if 0xF1 ≤ b0 ∧ b0 ≤ 0xF3 then
      match rest with
      | b1 :: b2 :: b3 :: r =>
        (0x80 ≤ b1 && b1 ≤ 0xBF) && (0x80 ≤ b2 && b2 ≤ 0xBF) &&
          (0x80 ≤ b3 && b3 ≤ 0xBF) && isValidUtf8 r
      | _ => false
    else if b0 = 0xF4 then
      match rest with
      | b1 :: b2 :: b3 :: r =>
        (0x80 ≤ b1 && b1 ≤ 0x8F) && (0x80 ≤ b2 && b2 ≤ 0xBF) &&
          (0x80 ≤ b3 && b3 ≤ 0xBF) && isValidUtf8 r
      | _ => false
    else false

/-- The `name` parser: `map_res!(length_bytes!(le_u64), String::from_utf8)`.
The decoded string is kept as its UTF-8 byte list. -/
def pName (bs : List Nat) : Option (List Nat × List Nat) := do
  let (len, r1) ← leU64 bs
  let (nm, r2) ← pTake len r1
  if isValidUtf8 nm then some (nm, r2) else none

/-- The `tvm_ctx` parser: `le_u32` device_type, `le_i32` device_id, both
cast `as usize`. -/
def pCtx (bs : List Nat) : Option ((Nat × Nat) × List Nat) := do
  let (dt, r1) ← leU32 bs
  let (di, r2) ← leU32 r1  -- le_i32 reads the same 4 raw bytes
  pure ((dt, i32AsUsize di), r2)

/-- The `data_type` parser: `le_u8` code, `le_u8` bits, `le_u16` lanes. -/
def pDataType (bs : List Nat) : Option (DataType × List Nat) := do
  let (code, r1) ← leU8 bs
  let (bits, r2) ← leU8 r1
  let (lanes, r3) ← leU16 r2
  pure (({ code := code, bits := bits, lanes := lanes } : DataType), r3)

/-- `Storage` (array.rs): `Owned(Allocation)` or `View(ptr, size)`.  An
owned storage is represented by its byte contents, a view by the viewed
address and size. -/
inductive MStorage where
  | Owned : List Nat → MStorage
  | View : Nat → Nat → MStorage
deriving DecidableEq, Repr

/-- The `Tensor` struct literal built by the `tensor` parser in graph.rs
(`data: Storage::try_from(data).unwrap()` — an `Owned` copy of the payload
slice — with `strides: None` and `byte_offset: 0`; the source literal sets
no other fields). -/
structure PTensor where
  data : MStorage
  ctx : Nat × Nat
  dtype : DataType
  shape : List Nat
  strides : Option (List Nat)
  byte_offset : Nat
deriving DecidableEq, Repr

/-- The `tensor` parser: unchecked `take!(8)` magic, zero `reserved`, ctx,
`ndim`, dtype, `shape` as `ndim` × (`le_i64` as usize — a bit-identity on
the raw 8-byte value), payload `length` (`le_i64`, used as the `take!`
count) and the payload bytes. -/
def pTensor (bs : List Nat) : Option (PTensor × List Nat) := do
  let (_, r1) ← pTake 8 bs
  let (_, r2) ← tagU64Zero r1
  let (ctx, r3) ← pCtx r2
  let (ndim, r4) ← leU32 r3
  let (dt, r5) ← pDataType r4
  let (shape, r6) ← pCount leU64 ndim r5
  let (len, r7) ← leU64 r6
  let (payload, r8) ← pTake len r7
  pure (({ data := MStorage.Owned payload, ctx := ctx, dtype := dt,
           shape := shape, strides := none, byte_offset := 0 } : PTensor), r8)

/-- `parse_param_dict`: unchecked `take!(8)` list magic, zero `reserved`,
`length_count!(le_u64, name)`, `length_count!(le_u64, tensor)`, and
`HashMap::from_iter(names.zip(tensors))`, modelled as the association list
in file order. -/
def parse_param_dict (bs : List Nat) :
    Option (List (List Nat × PTensor) × List Nat) := do
  let (_, r1) ← pTake 8 bs
  let (_, r2) ← tagU64Zero r1
  let (cn, r3) ← leU64 r2
  let (names, r4) ← pCount pName cn r3
  let (ct, r5) ← leU64 r4
  let (tensors, r6) ← pCount pTensor ct r5
  pure (names.zip tensors, r6)

/-- `load_param_dict`: reject leftover bytes with `"extra input"`, any
parse failure with `"invalid parameters file"`. -/
def load_param_dict (bs : List Nat) :
    Except String (List (List Nat × PTensor)) :=
  match parse_param_dict bs with
  | some (dict, rem) =>
    if rem.length > 0 then Except.error "extra input" else Except.ok dict
  | none => Except.error "invalid parameters file"

/-! ## The §4.C container grammar (specification side)

`specEncodeParams` produces exactly the byte strings of the grammar in
§4.C of the specification; it is the reference against which the source
parser is compared (claims C6, C7). -/

/-- `w`-byte little-endian encoding of `n` (defined for `n < 256 ^ w`). -/
def natToBytesLE : Nat → Nat → List Nat
  | 0, _ => []
  | w + 1, n => n % 256 :: natToBytesLE w (n / 256)

/-- One tensor record of the grammar: ctx, dtype, shape and payload; the
byte lengths and magics are fixed by the grammar. -/
structure SpecTensorFile where
  device_type : Nat
  device_id : Nat
  code : Nat
  bits : Nat
  lanes : Nat
  shape : List Nat
  payload : List Nat
deriving DecidableEq, Repr

/-- §4.C `tensor` production. -/
def specEncodeTensor (t : SpecTensorFile) : List Nat :=
  natToBytesLE 8 NDARRAY_MAGIC ++ natToBytesLE 8 0 ++
  natToBytesLE 4 t.device_type ++ natToBytesLE 4 t.device_id ++
  natToBytesLE 4 t.shape.length ++
  natToBytesLE 1 t.code ++ natToBytesLE 1 t.bits ++ natToBytesLE 2 t.lanes ++
  (t.shape.map (natToBytesLE 8)).flatten ++
  natToBytesLE 8 t.payload.length ++ t.payload

/-- §4.C `names` item production. -/
def specEncodeName (nm : List Nat) : List Nat :=
  natToBytesLE 8 nm.length ++ nm

/-- §4.C top-level production: header magic, reserved `0`, counted names,
counted tensors. -/
def specEncodeParams (names : List (List Nat)) (tensors : List SpecTensorFile) :
    List Nat :=
  natToBytesLE 8 NDARRAY_LIST_MAGIC ++ natToBytesLE 8 0 ++
  natToBytesLE 8 names.length ++ (names.map specEncodeName).flatten ++
  natToBytesLE 8 tensors.length ++ (tensors.map specEncodeTensor).flatten

/-- The in-range/side conditions under which a name is producible by the
grammar: it serialises a string (valid UTF-8) and its length is encodable. -/
def specWfName (nm : List Nat) : Prop :=
  isValidUtf8 nm = true ∧ nm.length < 2 ^ 64

/-- The in-range side conditions on one grammar tensor record: each field
fits the integer width the grammar assigns to it (`length` is a
non-negative `i64`). -/
def specWfTensor (t : SpecTensorFile) : Prop :=
  t.device_type < 2 ^ 32 ∧ t.device_id < 2 ^ 32 ∧
  t.shape.length < 2 ^ 32 ∧
  t.code < 2 ^ 8 ∧ t.bits < 2 ^ 8 ∧ t.lanes < 2 ^ 16 ∧
  (∀ s ∈ t.shape, s < 2 ^ 63) ∧ t.payload.length < 2 ^ 63

/-- Well-formedness of a whole grammar file: §4.C's counts are equal
(names and tensors in bijection), all fields in range. -/
def specWfParams (names : List (List Nat)) (tensors : List SpecTensorFile) :
    Prop :=
  names.length = tensors.length ∧ names.length < 2 ^ 64 ∧
  (∀ nm ∈ names, specWfName nm) ∧ (∀ t ∈ tensors, specWfTensor t)

/-- The `Tensor` that the source parser builds from one grammar tensor
record: an `Owned` copy of the payload, `strides = None`, `byte_offset = 0`. -/
def specExpectedTensor (t : SpecTensorFile) : PTensor :=
  { data := MStorage.Owned t.payload,
    ctx := (t.device_type, i32AsUsize t.device_id),
    dtype := { code := t.code, bits := t.bits, lanes := t.lanes },
    shape := t.shape,
    strides := none,
    byte_offset := 0 }

/-!
# Claims
-/

/-! ## C1 — storage planning (`setup_storages`) -/

/-- **C1, counterexample evaluation.**  On the three-tensor graph with
storage ids `[0, 1, 2]`, unit shapes and `float32` everywhere, the slot
sizes are `[4, 4, 4]` and the specified prefix-sum offsets are `[0, 4, 8]`;
but the source's offsets loop `for i in 0..(offsets.len() - 2)` stops one
slot early, leaving `offsets = [0, 4, 0]`: the third tensor is assigned
`byte_offset = 0`, which is not the prefix-sum offset of its slot (8),
overlaps slot 0, and makes the offsets sequence decrease. -/
theorem setup_storages_offsets_bug :
    setup_storages [0, 1, 2] [[1], [1], [1]]
        [DTYPE_FLOAT32, DTYPE_FLOAT32, DTYPE_FLOAT32]
      = some (some 4, 12, [0, 4, 0],
          [⟨0, [1], DTYPE_FLOAT32, 0⟩, ⟨1, [1], DTYPE_FLOAT32, 4⟩,
           ⟨2, [1], DTYPE_FLOAT32, 0⟩])
  ∧ specSlotOffsets [4, 4, 4] = [0, 4, 8]
  ∧ ([0, 4, 0] : List Nat) ≠ [0, 4, 8] := by
  refine ⟨by decide, by decide, by decide⟩

/-! ## C2 — kernel argument binding (`setup_op_execs`) -/

/-- **C2, counterexample evaluation.**  For `node_row_ptr = [0, 1, 2]`,
a node with id 1, one input entry `(0, 0)` and one output, the source binds
argument indices `[0, node_row_ptr[0]] = [0, 0]` (it indexes `node_row_ptr`
by the output ordinal), while the claim prescribes
`[0, node_row_ptr[1] + 0] = [0, 1]`. -/
theorem op_arg_indices_misindex_outputs :
    op_arg_indices [0, 1, 2] [(0, 0)] 1 = some [0, 0]
  ∧ spec_arg_indices [0, 1, 2] [(0, 0)] 1 1 = some [0, 1]
  ∧ (some [0, 0] : Option (List Nat)) ≠ some [0, 1] := by
  refine ⟨by decide, by decide, by decide⟩

/-! ## C3 — workspace best-fit reuse (`WorkspacePool::alloc`) -/

/-- **C3, counterexample evaluation.**  Running the spec's own scenario
`a = alloc(100, 4); free(a); b = alloc(50, 4)` from the empty pool: block 0
is free, large enough (100 ≥ 50) and of exact alignment, yet `alloc`
returns a *new* block 1 (the selection fold seeds its accumulator with
`None` and combines candidates with `and_then`, so no free block is ever
chosen) — `b ≠ a` and the pool has grown to two blocks. -/
theorem workspace_alloc_never_reuses :
    WorkspacePool.alloc ⟨[], [], []⟩ 100 4 = (⟨[⟨100, 4⟩], [], [0]⟩, 0)
  ∧ WorkspacePool.freeBlock ⟨[⟨100, 4⟩], [], [0]⟩ 0
      = some ⟨[⟨100, 4⟩], [0], []⟩
  ∧ WorkspacePool.alloc ⟨[⟨100, 4⟩], [0], []⟩ 50 4
      = (⟨[⟨100, 4⟩, ⟨50, 4⟩], [0], [1]⟩, 1)
  ∧ (1 : Nat) ≠ 0 := by
  refine ⟨by decide, by decide, by decide, by decide⟩

/-! ## C4 — `TVMBackendFreeWorkspace` return value -/

/-- **C4, counterexample evaluation.**  Freeing pointer 0 in the empty pool
(no block in use) fails inside `WorkspacePool::free`, but
`TVMBackendFreeWorkspace` still returns `0`, not `-1`: the `match` computing
`-1` is discarded and the function ends with `return 0`. -/
theorem tvm_backend_free_workspace_always_zero :
    TVMBackendFreeWorkspace ⟨[], [], []⟩ 0 = (⟨[], [], []⟩, 0)
  ∧ WorkspacePool.freeBlock ⟨[], [], []⟩ 0 = none
  ∧ (0 : Int) ≠ -1 := by
  refine ⟨by decide, by decide, by decide⟩

/-! ## C5 — the copy law (`Tensor::copy` / `Tensor::to_vec`) -/

/-- **C5, counterexample evaluation.**  `dst.copy_from(src)` with matching
dtype (`int8`), matching `numel = 2` and both sides contiguous, where `src`
has `byte_offset = 1` over storage bytes `[9, 7, 5]`: the copy reads from
`other.data.as_mut_ptr()` *without* `other.byte_offset` (the `.offset(...)`
is commented out in the source), so `dst.to_vec::<u8>() = [9, 7]` while
`src.to_vec::<u8>() = [7, 5]`. -/
theorem tensor_copy_ignores_src_byte_offset :
    (MTensor.copy ⟨[0, 0], (1, 0), ⟨0, 8, 1⟩, [2], none, 0, 2⟩
                  ⟨[9, 7, 5], (1, 0), ⟨0, 8, 1⟩, [2], none, 1, 2⟩).map
        (fun t => t.to_vec 1) = some [9, 7]
  ∧ MTensor.to_vec ⟨[9, 7, 5], (1, 0), ⟨0, 8, 1⟩, [2], none, 1, 2⟩ 1 = [7, 5]
  ∧ (some [9, 7] : Option (List Nat)) ≠ some [7, 5] := by
  refine ⟨by decide, by decide, by decide⟩

/-! ## C8 — dtype string parser -/

/-- **C8.**  `tvm_str_to_type` maps `"float32" ↦ {float, 32, 1}`,
`"uint111x44" ↦ {uint, 111, 44}`, `"int16" ↦ {int, 16, 1}`; and for every
successfully parsed string, an alphabetic kind other than
`int`/`uint`/`float` yields the float code, and `lanes = 1` whenever no
`"x<lanes>"` suffix follows the bits digits. -/
theorem tvm_str_to_type_spec :
    tvm_str_to_type "float32".toList
      = some (⟨DLDataTypeCode_kDLFloat, 32, 1⟩, [])
  ∧ tvm_str_to_type "uint111x44".toList
      = some (⟨DLDataTypeCode_kDLUInt, 111, 44⟩, [])
  ∧ tvm_str_to_type "int16".toList
      = some (⟨DLDataTypeCode_kDLInt, 16, 1⟩, [])
  ∧ ∀ cs d rest, tvm_str_to_type cs = some (d, rest) →
      (cs.takeWhile isAsciiAlphaCh ≠ "int".toList →
       cs.takeWhile isAsciiAlphaCh ≠ "uint".toList →
       cs.takeWhile isAsciiAlphaCh ≠ "float".toList →
        d.code = DLDataTypeCode_kDLFloat)
      ∧ ((∀ r, (cs.dropWhile isAsciiAlphaCh).dropWhile isAsciiDigitCh
            ≠ 'x' :: r) → d.lanes = 1) := by
  refine ⟨by decide, by decide, by decide, ?_⟩
  intro cs d rest h
  dsimp only [tvm_str_to_type] at h
  split at h
  · exact absurd h (by simp)
  · split at h
    · exact absurd h (by simp)
    · split at h
      · exact absurd h (by simp)
      · split at h
        · rename_i ds rest3 hmatch
          split at h
          · exact absurd h (by simp)
          · rw [Option.some.injEq, Prod.mk.injEq] at h
            obtain ⟨h1, h2⟩ := h
            subst h1
            constructor
            · intro h1 h2 h3
              simp only [dtypeCodeOfKind, if_neg h1, if_neg h2, if_neg h3]
            · intro hno
              exfalso
              revert hmatch
              split
              · rename_i r hr
                split
                · rintro ⟨⟩
                · rintro ⟨⟩
                  exact hno r hr
              · rintro ⟨⟩
        · rename_i rest3 hmatch
          rw [Option.some.injEq, Prod.mk.injEq] at h
          obtain ⟨h1, h2⟩ := h
          subst h1
          constructor
          · intro h1 h2 h3
            simp only [dtypeCodeOfKind, if_neg h1, if_neg h2, if_neg h3]
          · intro _; rfl

/-- **C8 witness.**  `"bool8"` parses; its kind is unknown, so the theorem
yields the float code, and with no `"x"` suffix it yields `lanes = 1`. -/
theorem tvm_str_to_type_spec_witness :
    tvm_str_to_type "bool8".toList
      = some (⟨DLDataTypeCode_kDLFloat, 8, 1⟩, [])
  ∧ (⟨DLDataTypeCode_kDLFloat, 8, 1⟩ : DataType).code = DLDataTypeCode_kDLFloat
  ∧ (⟨DLDataTypeCode_kDLFloat, 8, 1⟩ : DataType).lanes = 1 := by
  have hnil : List.dropWhile isAsciiDigitCh
      (List.dropWhile isAsciiAlphaCh "bool8".toList) = [] := by decide
  refine ⟨by decide, ?_, ?_⟩
  · exact (tvm_str_to_type_spec.2.2.2 "bool8".toList
      ⟨DLDataTypeCode_kDLFloat, 8, 1⟩ [] (by decide)).1
      (by decide) (by decide) (by decide)
  · exact (tvm_str_to_type_spec.2.2.2 "bool8".toList
      ⟨DLDataTypeCode_kDLFloat, 8, 1⟩ [] (by decide)).2
      (by intro r h; rw [hnil] at h; cases h)

/-! ## C6 — magic numbers are not checked by the parameter parser -/

/-- **C6, counterexample evaluation.**  The 32-byte all-zero file has
leading u64 `0 ≠ NDARRAY_LIST_MAGIC`, yet `load_param_dict` *succeeds*
(with the empty dictionary): both magics are consumed by an unchecked
`take!(8)` in the source, so a wrong magic does not cause
`LoadGraphParams("invalid parameters file")`. -/
theorem load_param_dict_ignores_list_magic :
    load_param_dict (List.replicate 32 0) = Except.ok []
  ∧ bytesToNatLE ((List.replicate 32 0).take 8) = 0
  ∧ (0 : Nat) ≠ NDARRAY_LIST_MAGIC := by
  refine ⟨by rfl, by decide, by decide⟩

/-! ## C9 — task-count derivation (`Job::tasks`) -/

/-- **C9.**  `Job::tasks` derives `num_tasks = num_workers` when
`req_num_tasks = 0` and `min(req_num_tasks, num_workers)` otherwise; the
`pending` counter is initialised to that value (the first component), the
task ids are `0 .. num_tasks - 1` in order, and every task's
`penv.num_task` equals `num_tasks`. -/
theorem job_tasks_spec (req nw : Nat) :
    ((req = 0 → (job_tasks req nw).1 = nw)
  ∧ (req ≠ 0 → (job_tasks req nw).1 = min req nw))
  ∧ (job_tasks req nw).2.map MTask.id = List.range (job_tasks req nw).1
  ∧ ∀ t ∈ (job_tasks req nw).2, t.num_task = (job_tasks req nw).1 := by
  refine ⟨⟨?_, ?_⟩, ?_, ?_⟩
  · intro h; simp [job_tasks, h]
  · intro h; simp [job_tasks, h]
  · simp only [job_tasks, List.map_map]
    exact List.map_id _ ▸ rfl
  · intro t ht
    simp only [job_tasks, List.mem_map, List.mem_range] at ht
    obtain ⟨i, _, rfl⟩ := ht
    rfl

/-- **C9 witness.**  With `req_num_tasks = 5` and 3 workers the derived
task count (= initial `pending`) is `min 5 3`. -/
theorem job_tasks_spec_witness : (job_tasks 5 3).1 = min 5 3 :=
  (job_tasks_spec 5 3).1.2 (by decide)

/-! ## C10 — `DLTensor::from_tensor` projection -/

/-- **C10.**  Every descriptor produced by `DLTensor::from_tensor` has
`byte_offset = 0` with the tensor's own byte offset folded into the data
pointer (`data = base + byte_offset`), and a null `strides` pointer
whenever the tensor is contiguous or the flatten projection was requested —
even when the tensor stores an explicit strides vector. -/
theorem dltensor_from_tensor_projection (base : Nat) (t : MTensor)
    (flatten : Bool) (d : MDLTensor)
    (h : DLTensor.from_tensor base t flatten = some d) :
    d.byte_offset = 0 ∧ d.dataAddr = base + t.byte_offset ∧
    ((t.is_contiguous = true ∨ flatten = true) → d.strides = none) := by
  unfold DLTensor.from_tensor at h
  split at h
  · exact absurd h (by simp)
  · rw [Option.some.injEq] at h
    subst h
    refine ⟨rfl, rfl, ?_⟩
    intro hc
    rcases hc with hc | hc
    · simp [hc]
    · simp [hc]

/-- **C10 witness.**  A contiguous tensor that nevertheless stores the
explicit strides vector `[3, 1]` projects (un-flattened) to a descriptor
with data address `100 + 8`, null strides and `byte_offset = 0`. -/
theorem dltensor_from_tensor_projection_witness :
    DLTensor.from_tensor 100
        ⟨[], (1, 0), ⟨2, 32, 1⟩, [2, 3], some [3, 1], 8, 6⟩ false
      = some ⟨108, 1, 0, 2, ⟨2, 32, 1⟩, [2, 3], none, 0⟩
  ∧ (⟨108, 1, 0, 2, ⟨2, 32, 1⟩, [2, 3], none, 0⟩ : MDLTensor).byte_offset = 0
  ∧ (⟨108, 1, 0, 2, ⟨2, 32, 1⟩, [2, 3], none, 0⟩ : MDLTensor).strides = none := by
  refine ⟨by decide, ?_, ?_⟩
  · exact (dltensor_from_tensor_projection 100
      ⟨[], (1, 0), ⟨2, 32, 1⟩, [2, 3], some [3, 1], 8, 6⟩ false
      ⟨108, 1, 0, 2, ⟨2, 32, 1⟩, [2, 3], none, 0⟩ (by decide)).1
  · exact (dltensor_from_tensor_projection 100
      ⟨[], (1, 0), ⟨2, 32, 1⟩, [2, 3], some [3, 1], 8, 6⟩ false
      ⟨108, 1, 0, 2, ⟨2, 32, 1⟩, [2, 3], none, 0⟩ (by decide)).2.2
      (Or.inl (by decide))

/-! ## C7 — parameter-file roundtrip: encoder/parser lemmas -/

theorem natToBytesLE_length (w n : Nat) : (natToBytesLE w n).length = w := by
  induction w generalizing n with
  | zero => rfl
  | succ w ih => simp [natToBytesLE, ih]

theorem bytesToNatLE_natToBytesLE (w n : Nat) :
    bytesToNatLE (natToBytesLE w n) = n % 256 ^ w := by
  induction w generalizing n with
  | zero => simp [natToBytesLE, bytesToNatLE, Nat.mod_one]
  | succ w ih =>
    have h1 : (n % (256 * 256 ^ w)) % 256 = n % 256 :=
      Nat.mod_mod_of_dvd n ⟨256 ^ w, rfl⟩
    calc bytesToNatLE (natToBytesLE (w + 1) n)
        = n % 256 + 256 * (n / 256 % 256 ^ w) := by
          simp [natToBytesLE, bytesToNatLE, ih]
      _ = (n % (256 * 256 ^ w)) % 256 + 256 * ((n % (256 * 256 ^ w)) / 256) := by
          rw [h1, Nat.mod_mul_right_div_self]
      _ = n % (256 * 256 ^ w) := Nat.mod_add_div _ _
      _ = n % 256 ^ (w + 1) := by rw [pow_succ']

theorem pTake_append (l rest : List Nat) :
    pTake l.length (l ++ rest) = some (l, rest) := by
  unfold pTake
  rw [if_pos (by simp)]
  rw [List.take_left, List.drop_left]

theorem pTake_natToBytesLE (w n : Nat) (rest : List Nat) :
    pTake w (natToBytesLE w n ++ rest) = some (natToBytesLE w n, rest) := by
  have h := pTake_append (natToBytesLE w n) rest
  rwa [natToBytesLE_length] at h

theorem leU64_encode (n : Nat) (h : n < 2 ^ 64) (rest : List Nat) :
    leU64 (natToBytesLE 8 n ++ rest) = some (n, rest) := by
  unfold leU64
  rw [pTake_natToBytesLE]
  simp only [Option.map_some']
  rw [bytesToNatLE_natToBytesLE, show (256 : Nat) ^ 8 = 2 ^ 64 from by norm_num,
    Nat.mod_eq_of_lt h]

theorem leU32_encode (n : Nat) (h : n < 2 ^ 32) (rest : List Nat) :
    leU32 (natToBytesLE 4 n ++ rest) = some (n, rest) := by
  unfold leU32
  rw [pTake_natToBytesLE]
  simp only [Option.map_some']
  rw [bytesToNatLE_natToBytesLE, show (256 : Nat) ^ 4 = 2 ^ 32 from by norm_num,
    Nat.mod_eq_of_lt h]

theorem leU16_encode (n : Nat) (h : n < 2 ^ 16) (rest : List Nat) :
    leU16 (natToBytesLE 2 n ++ rest) = some (n, rest) := by
  unfold leU16
  rw [pTake_natToBytesLE]
  simp only [Option.map_some']
  rw [bytesToNatLE_natToBytesLE, show (256 : Nat) ^ 2 = 2 ^ 16 from by norm_num,
    Nat.mod_eq_of_lt h]

theorem leU8_encode (n : Nat) (h : n < 2 ^ 8) (rest : List Nat) :
    leU8 (natToBytesLE 1 n ++ rest) = some (n, rest) := by
  unfold leU8
  rw [pTake_natToBytesLE]
  simp only [Option.map_some']
  rw [bytesToNatLE_natToBytesLE, show (256 : Nat) ^ 1 = 2 ^ 8 from by norm_num,
    Nat.mod_eq_of_lt h]

theorem tagU64Zero_encode (rest : List Nat) :
    tagU64Zero (natToBytesLE 8 0 ++ rest) = some ((), rest) := by
  unfold tagU64Zero
  rw [pTake_natToBytesLE]
  simp [bytesToNatLE_natToBytesLE]

theorem pName_encode (nm : List Nat) (h : specWfName nm) (rest : List Nat) :
    pName (specEncodeName nm ++ rest) = some (nm, rest) := by
  obtain ⟨hv, hlen⟩ := h
  simp only [pName, specEncodeName, List.append_assoc, Option.bind_eq_bind,
    leU64_encode nm.length hlen, Option.some_bind, pTake_append, hv, if_pos]

theorem pCtx_encode (dt di : Nat) (hdt : dt < 2 ^ 32) (hdi : di < 2 ^ 32)
    (rest : List Nat) :
    pCtx (natToBytesLE 4 dt ++ (natToBytesLE 4 di ++ rest))
      = some ((dt, i32AsUsize di), rest) := by
  simp only [pCtx, Option.bind_eq_bind, leU32_encode dt hdt, Option.some_bind,
    leU32_encode di hdi, Option.pure_def]

theorem pDataType_encode (code bits lanes : Nat) (hc : code < 2 ^ 8)
    (hb : bits < 2 ^ 8) (hl : lanes < 2 ^ 16) (rest : List Nat) :
    pDataType (natToBytesLE 1 code ++ (natToBytesLE 1 bits ++
        (natToBytesLE 2 lanes ++ rest)))
      = some (⟨code, bits, lanes⟩, rest) := by
  simp only [pDataType, Option.bind_eq_bind, leU8_encode code hc,
    Option.some_bind, leU8_encode bits hb, leU16_encode lanes hl,
    Option.pure_def]

theorem pCount_encode {α β : Type} (p : List Nat → Option (β × List Nat))
    (f : α → List Nat) (g : α → β) (items : List α)
    (h : ∀ a ∈ items, ∀ r, p (f a ++ r) = some (g a, r)) :
    ∀ rest, pCount p items.length ((items.map f).flatten ++ rest)
      = some (items.map g, rest) := by
  induction items with
  | nil => intro rest; simp [pCount]
  | cons a as ih =>
    intro rest
    have hstep : ∀ r, p (f a ++ r) = some (g a, r) := h a (by simp)
    have hih := ih (fun x hx r => h x (by simp [hx]) r)
    simp only [List.map_cons, List.flatten_cons, List.length_cons,
      List.append_assoc, pCount, Option.bind_eq_bind, hstep, Option.some_bind,
      hih, Option.pure_def]

theorem pTensor_encode (t : SpecTensorFile) (h : specWfTensor t)
    (rest : List Nat) :
    pTensor (specEncodeTensor t ++ rest) = some (specExpectedTensor t, rest) := by
  obtain ⟨h1, h2, h3, hc, hb, hl, hsh, hpl⟩ := h
  have hshape : ∀ s ∈ t.shape, ∀ r,
      leU64 (natToBytesLE 8 s ++ r) = some (s, r) :=
    fun s hs r => leU64_encode s (lt_trans (hsh s hs) (by norm_num)) r
  have hcount := pCount_encode leU64 (natToBytesLE 8) (fun s => s) t.shape hshape
  have hplen : t.payload.length < 2 ^ 64 := lt_trans hpl (by norm_num)
  simp only [pTensor, specEncodeTensor, List.append_assoc, Option.bind_eq_bind,
    pTake_natToBytesLE, Option.some_bind, tagU64Zero_encode,
    pCtx_encode t.device_type t.device_id h1 h2,
    leU32_encode t.shape.length h3,
    pDataType_encode t.code t.bits t.lanes hc hb hl,
    hcount, List.map_id',
    leU64_encode t.payload.length hplen,
    pTake_append, Option.pure_def, specExpectedTensor]

theorem parse_param_dict_encode (names : List (List Nat))
    (tensors : List SpecTensorFile) (h : specWfParams names tensors)
    (rest : List Nat) :
    parse_param_dict (specEncodeParams names tensors ++ rest)
      = some (names.zip (tensors.map specExpectedTensor), rest) := by
  obtain ⟨hlen, hcount, hn, ht⟩ := h
  have hnames := pCount_encode pName specEncodeName (fun nm => nm) names
    (fun nm hm r => pName_encode nm (hn nm hm) r)
  have htensors := pCount_encode pTensor specEncodeTensor specExpectedTensor
    tensors (fun a ha r => pTensor_encode a (ht a ha) r)
  have hclen : tensors.length < 2 ^ 64 := hlen ▸ hcount
  simp only [parse_param_dict, specEncodeParams, List.append_assoc,
    Option.bind_eq_bind, pTake_natToBytesLE, Option.some_bind,
    tagU64Zero_encode, leU64_encode names.length hcount, hnames,
    List.map_id', leU64_encode tensors.length hclen, htensors,
    Option.pure_def]

/-- **C7.**  For every byte string produced by the §4.C grammar (well-formed
field widths; names serialise UTF-8 strings, as they are the keys of the
string-keyed mapping of §4.C), `load_param_dict` succeeds and yields the
association list pairing the file's names, in order, with tensors holding an
`Owned` copy of exactly the file's payload bytes, `strides = none` and
`byte_offset = 0`; and appending any extra byte to the file makes it fail
with `"extra input"`. -/
theorem load_param_dict_roundtrip (names : List (List Nat))
    (tensors : List SpecTensorFile) (h : specWfParams names tensors) :
    load_param_dict (specEncodeParams names tensors)
      = Except.ok (names.zip (tensors.map specExpectedTensor))
  ∧ (names.zip (tensors.map specExpectedTensor)).map Prod.fst = names
  ∧ ∀ b, load_param_dict (specEncodeParams names tensors ++ [b])
      = Except.error "extra input" := by
  refine ⟨?_, ?_, ?_⟩
  · have hp := parse_param_dict_encode names tensors h []
    rw [List.append_nil] at hp
    simp [load_param_dict, hp]
  · exact List.map_fst_zip _ _ (by simp [h.1])
  · intro b
    have hp := parse_param_dict_encode names tensors h [b]
    simp [load_param_dict, hp]

/-- **C7 witness.**  A concrete one-entry parameter file (name `"a"`,
a `float32` scalar tensor with payload `[1, 2, 3, 4]`) is well formed and
loads back to exactly that association list. -/
theorem load_param_dict_roundtrip_witness :
    specWfParams [[0x61]] [⟨1, 0, 2, 32, 1, [1], [1, 2, 3, 4]⟩]
  ∧ load_param_dict
        (specEncodeParams [[0x61]] [⟨1, 0, 2, 32, 1, [1], [1, 2, 3, 4]⟩])
      = Except.ok ([[0x61]].zip
          ([⟨1, 0, 2, 32, 1, [1], [1, 2, 3, 4]⟩].map specExpectedTensor)) :=
  ⟨by unfold specWfParams specWfName specWfTensor; decide,
   (load_param_dict_roundtrip [[0x61]]
      [⟨1, 0, 2, 32, 1, [1], [1, 2, 3, 4]⟩]
      (by unfold specWfParams specWfName specWfTensor; decide)).1⟩
